import Mathlib

/-!
Verification of the demand-forecasting preprocessing pipeline
(src/modules/preprocessing.py and src/modules/utils.py).

Tables are embedded as Lists of structures; pandas dates are embedded as
integers counting days since 2024-01-01, which was a Monday, so a day
number d has day-of-week d % 7 with 0 = Monday and 6 = Sunday.
Nullable columns are Option-valued; numeric columns that can hold
fractions (ages, prices, rates) are rationals.
-/

/-- A raw transaction row: t_dat (day number), customer_id, article_id. -/
structure Transaction where
  t_dat : Int
  customer_id : Nat
  article_id : Nat
deriving Repr, DecidableEq

/-! ## weekly_aggregation (preprocessing.py lines 4-22)

The source resamples with frequency W, whose bins are weeks ending on
Sunday labelled by their Sunday end date, and separately computes
`transactions['week']` as `t_dat.dt.to_period('W').dt.to_timestamp()`,
the Monday start of the same week.  `weekly_data.to_dict()` is therefore
keyed by Sundays while the `week` column holds Mondays, and the final
`.map` looks Mondays up among Sundays. -/

/-- Monday at or before day d (start of the W-SUN period containing d);
this is the value pandas puts in the `week` column. -/
def weekStart (d : Int) : Int := d - d % 7

/-- The resample label of the week containing d: its Sunday end date. -/
def resampleLabel (d : Int) : Int := weekStart d + 6

/-- The dict produced by `transactions.resample('W', on='t_dat').size().to_dict()`:
keys are the Sunday labels of every week bin from the first to the last
occupied bin (resample fills the gaps with empty bins of size 0), each
mapped to the number of transactions in that bin. -/
def weeklyDict (ts : List Transaction) (k : Int) : Option Nat :=
  match ts with
  | [] => none
  | t0 :: _ =>
    let labels := ts.map (fun t => resampleLabel t.t_dat)
    let lo := labels.foldl min (resampleLabel t0.t_dat)
    let hi := labels.foldl max (resampleLabel t0.t_dat)
    if lo ≤ k ∧ k ≤ hi ∧ (k - lo) % 7 = 0 then
      some ((ts.filter (fun t => resampleLabel t.t_dat == k)).length)
    else none

/-- A transaction row after weekly_aggregation: the added `week` column and
the added `weekly_transactions` column (Option, since a failed dict lookup
leaves NaN). -/
structure TransactionW extends Transaction where
  week : Int
  weekly_transactions : Option Nat
deriving Repr, DecidableEq

/-- weekly_aggregation: add the week-start column and map it through the
per-week count dict. -/
def weekly_aggregation (ts : List Transaction) : List TransactionW :=
  ts.map (fun t =>
    { t with
      week := weekStart t.t_dat
      weekly_transactions := weeklyDict ts (weekStart t.t_dat) })

/-- The two-row example from the spec: dates 2024-01-01 (day 0) and
2024-01-03 (day 2), same customer and article. -/
def exampleTransactions : List Transaction :=
  [{ t_dat := 0, customer_id := 1, article_id := 10 },
   { t_dat := 2, customer_id := 1, article_id := 10 }]

/-! ## handle_missing_values (preprocessing.py lines 25-36) -/

/-- A customer row.  FN, Active, age are nullable numerics (rationals);
fashion_news_frequency and club_member_status are nullable categoricals. -/
structure Customer where
  customer_id : Nat
  FN : Option ℚ
  Active : Option ℚ
  fashion_news_frequency : Option String
  age : Option ℚ
  club_member_status : Option String
deriving Repr, DecidableEq

/-- pandas Series.median with skipna: sort the values, take the middle one
(odd length) or the mean of the two middle ones (even length); an empty
series has median NaN, modelled as none. -/
def medianQ (l : List ℚ) : Option ℚ :=
  if (l.insertionSort (fun x y => x ≤ y)).length = 0 then none
  else if (l.insertionSort (fun x y => x ≤ y)).length % 2 = 1 then
    some ((l.insertionSort (fun x y => x ≤ y)).getD
      ((l.insertionSort (fun x y => x ≤ y)).length / 2) 0)
  else
    some (((l.insertionSort (fun x y => x ≤ y)).getD
        ((l.insertionSort (fun x y => x ≤ y)).length / 2 - 1) 0
      + (l.insertionSort (fun x y => x ≤ y)).getD
        ((l.insertionSort (fun x y => x ≤ y)).length / 2) 0) / 2)

/-- handle_missing_values: FN and Active filled with 0,
fashion_news_frequency with the literal "None", age with the median of the
non-null ages (a no-op when every age is null, since the median of an empty
series is NaN), and club_member_status, where null, with "ACTIVE" when the
already-filled fashion_news_frequency is "Regularly" and "NON-ACTIVE"
otherwise. -/
def handle_missing_values (cs : List Customer) : List Customer :=
  let m := medianQ (cs.filterMap (fun c => c.age))
  cs.map (fun c =>
    let fnf := c.fashion_news_frequency.getD "None"
    { c with
      FN := some (c.FN.getD 0)
      Active := some (c.Active.getD 0)
      fashion_news_frequency := some fnf
      age := c.age.or m
      club_member_status := some (c.club_member_status.getD
        (if fnf = "Regularly" then "ACTIVE" else "NON-ACTIVE")) })

/-! ## create_age_bins (preprocessing.py lines 52-69) -/

/-- The bin edges passed to pd.cut. -/
def age_bins : List ℚ := [10, 19, 29, 39, 49, 59, 69]

/-- The bin labels passed to pd.cut. -/
def age_labels : List String := ["10-19", "20-29", "30-39", "40-49", "50-59", "60+"]

/-- pd.cut with right=False: the value is assigned the label of the
left-closed right-open interval between consecutive edges that contains
it, or NaN when no interval does. -/
def cutLeftClosed : List ℚ → List String → ℚ → Option String
  | b1 :: b2 :: bs, lab :: labs, a =>
      if b1 ≤ a ∧ a < b2 then some lab else cutLeftClosed (b2 :: bs) labs a
  | _, _, _ => none

/-- The adjusted age: ages below 20 forced to 10, ages at or above 60
forced to 60, others unchanged. -/
def adjustAge (a : ℚ) : ℚ := if a < 20 then 10 else if 60 ≤ a then 60 else a

/-- The age_bin column value computed from an adjusted age: pd.cut over
age_bins/age_labels, then the two explicit overrides for adjusted ages
exactly 10 and exactly 60. -/
def binOfAdjusted (adj : ℚ) : Option String :=
  let b0 := cutLeftClosed age_bins age_labels adj
  let b1 := if adj = 10 then some "10-19" else b0
  if adj = 60 then some "60+" else b1

/-- A customer row after create_age_bins. -/
structure CustomerBinned extends Customer where
  adjusted_age : Option ℚ
  age_bin : Option String
deriving Repr, DecidableEq

/-- create_age_bins: add the adjusted_age and age_bin columns.  A null age
propagates: comparisons with NaN are false, so adjusted_age stays NaN and
pd.cut and the overrides leave age_bin NaN. -/
def create_age_bins (cs : List Customer) : List CustomerBinned :=
  cs.map (fun c =>
    { c with
      adjusted_age := c.age.map adjustAge
      age_bin := (c.age.map adjustAge).bind binOfAdjusted })

/-- Claim C4's reading of the binning: the label of the left-inclusive
decade band containing the adjusted age, among the six labels. -/
def decadeBandLabel (a : ℚ) : Option String :=
  if 10 ≤ a ∧ a < 20 then some "10-19"
  else if 20 ≤ a ∧ a < 30 then some "20-29"
  else if 30 ≤ a ∧ a < 40 then some "30-39"
  else if 40 ≤ a ∧ a < 50 then some "40-49"
  else if 50 ≤ a ∧ a < 60 then some "50-59"
  else if 60 ≤ a then some "60+" else none

/-- What the code actually assigns, as a function of the original age:
the cut edges are 10,19,29,39,49,59,69, so an age at 29, 39, 49 or 59
falls in the band above its decade. -/
def amendedBinLabel (age : ℚ) : String :=
  if age < 20 then "10-19"
  else if age < 29 then "20-29"
  else if age < 39 then "30-39"
  else if age < 49 then "40-49"
  else if age < 59 then "50-59"
  else "60+"

/-- A customer whose five nullable columns are all null. -/
def customerAllNull : Customer :=
  { customer_id := 1, FN := none, Active := none,
    fashion_news_frequency := none, age := none, club_member_status := none }

/-- A customer with age 30 and everything else null. -/
def customerWithAge : Customer :=
  { customer_id := 2, FN := none, Active := none,
    fashion_news_frequency := none, age := some 30, club_member_status := none }

/-- A customer with age 29, used as the C4 counterexample. -/
def customerAge29 : Customer :=
  { customer_id := 3, FN := some 0, Active := some 0,
    fashion_news_frequency := some "None", age := some 29,
    club_member_status := some "ACTIVE" }

/-- A customer with age 45, used for the C4 witness. -/
def customerAge45 : Customer :=
  { customer_id := 4, FN := some 0, Active := some 0,
    fashion_news_frequency := some "None", age := some 45,
    club_member_status := some "ACTIVE" }

/-- The row create_age_bins produces from customerAge45. -/
def binned45 : CustomerBinned :=
  { toCustomer := customerAge45, adjusted_age := some 45, age_bin := some "40-49" }

/-! ## purchase_rate_per_article_per_age (preprocessing.py lines 72-105) -/

/-- One row of the temporary merge of transactions with
customers[['customer_id', 'age_bin']]. -/
structure TempRow where
  article_id : Nat
  age_bin : Option String
deriving Repr, DecidableEq

/-- The merged rows one transaction contributes: one row per matching
customer carrying that customer's age_bin, or a single row with a null
age_bin when no customer matches. -/
def expandTransaction (cs : List CustomerBinned) (t : Transaction) : List TempRow :=
  match cs.filter (fun c => decide (c.customer_id = t.customer_id)) with
  | [] => [{ article_id := t.article_id, age_bin := none }]
  | c :: cr =>
      (c :: cr).map (fun c => { article_id := t.article_id, age_bin := c.age_bin })

/-- The left merge on customer_id of transactions with
customers[['customer_id', 'age_bin']]. -/
def mergeAgeBin (ts : List Transaction) (cs : List CustomerBinned) : List TempRow :=
  (ts.map (fun t => expandTransaction cs t)).flatten

/-- Size of the (article, bin) group of the merged table.  Rows whose
age_bin is NaN carry a null group key and are dropped by groupby
(its default dropna=True), so they are counted in no bin. -/
def binCount (temp : List TempRow) (a : Nat) (b : String) : Nat :=
  temp.countP (fun r => decide (r.article_id = a ∧ r.age_bin = some b))

/-- Size of the article group of the merged table,
temp_data.groupby('article_id').size(): every row counts, including
null-age_bin ones. -/
def articleTotal (temp : List TempRow) (a : Nat) : Nat :=
  temp.countP (fun r => decide (r.article_id = a))

/-- The distinct article ids of the merged table. -/
def tempArticles (temp : List TempRow) : List Nat :=
  (temp.map (fun r => r.article_id)).dedup

/-- The purchase_rate rows of one article.  age_bin is a categorical
column and groupby keeps its default observed=False, so every article
gets one row per category — the six labels — including zero-count ones;
each group size is divided by the article's total row count. -/
def articleBlock (temp : List TempRow) (a : Nat) : List (Nat × String × ℚ) :=
  age_labels.map (fun b =>
    (a, b, (binCount temp a b : ℚ) / (articleTotal temp a : ℚ)))

/-- The purchase_rate table: one row per (article, category). -/
def purchaseRateTable (temp : List TempRow) : List (Nat × String × ℚ) :=
  ((tempArticles temp).map (fun a => articleBlock temp a)).flatten

/-- The purchase_rate values grouped back out of the table for one
article. -/
def articleRates (temp : List TempRow) (a : Nat) : List ℚ :=
  ((purchaseRateTable temp).filter (fun p => decide (p.1 = a))).map (fun p => p.2.2)

/-- purchase_rate_summary: the groupby('article_id').mean() of the
purchase_rate table, one scalar per article. -/
def purchaseRateSummary (temp : List TempRow) : List (Nat × ℚ) :=
  (tempArticles temp).map (fun a =>
    (a, (articleRates temp a).sum / ((articleRates temp a).length : ℚ)))

/-- A transaction row after purchase_rate_per_article_per_age. -/
structure TransactionPR extends Transaction where
  purchase_rate : Option ℚ
deriving Repr, DecidableEq

/-- purchase_rate_per_article_per_age: merge the age bins in, build the
per-(article, bin) rate table, average it per article, and left-merge the
scalar back onto the original transactions. -/
def purchase_rate_per_article_per_age (ts : List Transaction)
    (cs : List CustomerBinned) : List TransactionPR :=
  let temp := mergeAgeBin ts cs
  let summary := purchaseRateSummary temp
  ts.map (fun t =>
    { t with purchase_rate :=
        (summary.find? (fun p => decide (p.1 = t.article_id))).map (fun p => p.2) })

/-- Claim C2's reading: the observed buckets of an article are the
distinct age_bin values among the article's merged rows, a null age_bin
participating as its own bucket. -/
def claimObservedBuckets (temp : List TempRow) (a : Nat) : List (Option String) :=
  ((temp.filter (fun r => decide (r.article_id = a))).map (fun r => r.age_bin)).dedup

/-- Claim C2's reading of the purchase rate: the uniform mean, over
exactly the observed buckets, of the fraction of the article's purchases
in each bucket. -/
def claimPurchaseRate (temp : List TempRow) (a : Nat) : ℚ :=
  (((claimObservedBuckets temp a).map (fun b =>
      (temp.countP (fun r => decide (r.article_id = a ∧ r.age_bin = b)) : ℚ)
        / (articleTotal temp a : ℚ))).sum)
    / ((claimObservedBuckets temp a).length : ℚ)

/-- The article's merged rows whose age_bin is non-null: what actually
reaches the numerators. -/
def matchedCount (temp : List TempRow) (a : Nat) : Nat :=
  temp.countP (fun r => decide (r.article_id = a) && r.age_bin.isSome)

/-- Three transactions of article 10: two by customer 1 (binned "10-19")
and one by customer 2, who is absent from the customer table. -/
def exampleTransactionsPR : List Transaction :=
  [{ t_dat := 0, customer_id := 1, article_id := 10 },
   { t_dat := 1, customer_id := 1, article_id := 10 },
   { t_dat := 2, customer_id := 2, article_id := 10 }]

/-- The one-customer table for the purchase-rate counterexamples. -/
def exampleCustomersPR : List CustomerBinned :=
  [{ toCustomer :=
      { customer_id := 1, FN := some 0, Active := some 0,
        fashion_news_frequency := some "None", age := some 15,
        club_member_status := some "ACTIVE" },
     adjusted_age := some 10, age_bin := some "10-19" }]

/-- A single fully matched transaction, used for the C3 witness. -/
def witnessTransactionsPR : List Transaction :=
  [{ t_dat := 0, customer_id := 1, article_id := 10 }]

/-! ## calculate_elapsed_days (preprocessing.py lines 108-142) -/

/-- A transaction row after calculate_elapsed_days. -/
structure TransactionE extends Transaction where
  elapsed_days_since_last_purchase : Option Int
  elapsed_days_since_first_sell : Option Int
deriving Repr, DecidableEq

/-- groupby('customer_id')['t_dat'].max(): the customer's most recent
transaction date, defined when the customer occurs in the table. -/
def lastPurchase (ts : List Transaction) (c : Nat) : Option Int :=
  match (ts.filter (fun t => decide (t.customer_id = c))).map (fun t => t.t_dat) with
  | [] => none
  | d :: ds => some (ds.foldl max d)

/-- groupby('article_id')['t_dat'].min(): the article's earliest
transaction date, defined when the article occurs in the table. -/
def firstSell (ts : List Transaction) (a : Nat) : Option Int :=
  match (ts.filter (fun t => decide (t.article_id = a))).map (fun t => t.t_dat) with
  | [] => none
  | d :: ds => some (ds.foldl min d)

/-- calculate_elapsed_days: when no reference date is supplied the code
falls back to pd.Timestamp.today(), modelled here as the extra `today`
parameter; both elapsed columns are whole-table left joins keyed by
customer_id and article_id, so they are Option-valued, though the keys
always match because they come from the same table. -/
def calculate_elapsed_days (ts : List Transaction) (reference_date : Option Int)
    (today : Int) : List TransactionE :=
  let ref := reference_date.getD today
  ts.map (fun t =>
    { t with
      elapsed_days_since_last_purchase :=
        (lastPurchase ts t.customer_id).map (fun d => ref - d)
      elapsed_days_since_first_sell :=
        (firstSell ts t.article_id).map (fun d => ref - d) })

/-! ## group_articles (preprocessing.py lines 38-50) -/

/-- An article row. -/
structure Article where
  article_id : Nat
  product_type_name : String
  colour_group_name : String
  graphical_appearance_name : String
deriving Repr, DecidableEq

/-- The grouping triple. -/
def articleKey (a : Article) : String × String × String :=
  (a.product_type_name, a.colour_group_name, a.graphical_appearance_name)

/-- An article row after group_articles. -/
structure ArticleG extends Article where
  article_count : Option Nat
deriving Repr, DecidableEq

/-- grouped_articles: groupby over the triple with .size(): one row per
distinct triple carrying the group size. -/
def groupedArticles (as : List Article) : List ((String × String × String) × Nat) :=
  ((as.map articleKey).dedup).map
    (fun k => (k, as.countP (fun x => decide (articleKey x = k))))

/-- group_articles: left-merge the group sizes back onto every article row
on the triple. -/
def group_articles (as : List Article) : List ArticleG :=
  as.map (fun a =>
    { a with article_count :=
        ((groupedArticles as).find?
          (fun p => decide (p.1 = articleKey a))).map (fun p => p.2) })

/-- A three-article table: two articles share a triple. -/
def exampleArticles : List Article :=
  [{ article_id := 1, product_type_name := "Sweater", colour_group_name := "Black",
     graphical_appearance_name := "Solid" },
   { article_id := 2, product_type_name := "Sweater", colour_group_name := "Black",
     graphical_appearance_name := "Solid" },
   { article_id := 3, product_type_name := "Trousers", colour_group_name := "Blue",
     graphical_appearance_name := "Denim" }]

/-! ## get_top_product_groups (utils.py lines 74-97) -/

/-- A row of the grouped-data table, restricted to the two columns
get_top_product_groups reads. -/
structure GroupedRow where
  product_group : String
  transaction_count : Nat
deriving Repr, DecidableEq

/-- The total transaction_count of one product group across all days. -/
def groupTotal (g : List GroupedRow) (k : String) : Nat :=
  ((g.filter (fun r => decide (r.product_group = k))).map
    (fun r => r.transaction_count)).sum

/-- product_group_totals: groupby('product_group').sum(), one total per
distinct group. -/
def productGroupTotals (g : List GroupedRow) : List (String × Nat) :=
  ((g.map (fun r => r.product_group)).dedup).map (fun k => (k, groupTotal g k))

/-- The descending comparison used by
sort_values(by='transaction_count', ascending=False). -/
def countGE (p q : String × Nat) : Prop := q.2 ≤ p.2

instance : DecidableRel countGE := fun p q => Nat.decLe q.2 p.2

instance : IsTotal (String × Nat) countGE := ⟨fun p q => le_total q.2 p.2⟩

instance : IsTrans (String × Nat) countGE := ⟨fun _ _ _ h1 h2 => le_trans h2 h1⟩

/-- The totals sorted by transaction_count descending. -/
def sortedTotals (g : List GroupedRow) : List (String × Nat) :=
  (productGroupTotals g).insertionSort countGE

/-- top_product_groups: head(top_n) of the sorted totals. -/
def topProductGroups (g : List GroupedRow) (top_n : Nat) : List (String × Nat) :=
  (sortedTotals g).take top_n

/-- get_top_product_groups: keep exactly the rows whose product_group is
among the selected top groups. -/
def get_top_product_groups (g : List GroupedRow) (top_n : Nat) : List GroupedRow :=
  g.filter (fun r =>
    (topProductGroups g top_n).any (fun p => decide (p.1 = r.product_group)))

/-- A grouped-data table with two product groups over two days. -/
def exampleGrouped : List GroupedRow :=
  [{ product_group := "A", transaction_count := 5 },
   { product_group := "B", transaction_count := 2 },
   { product_group := "A", transaction_count := 4 }]

/-! ## load_best_hyperparameters (utils.py lines 99-109) -/

/-- The observable state of the best_hyperparameters.csv file: missing
(os.path.exists false), present but failing to read or parse (read_csv
raises), or parsed into a list of key-value rows.  The filesystem and the
CSV parser are external collaborators, so their outcome is passed in as
data. -/
inductive HyperparamFile where
  | missing : HyperparamFile
  | malformed : HyperparamFile
  | parsed : List (List (String × String)) → HyperparamFile
deriving Repr, DecidableEq

/-- load_best_hyperparameters: None when the file does not exist; the
try/except turns a failed read — or the IndexError of .iloc[0] on a
zero-row frame — into None; otherwise the first row as a key-value
mapping. -/
def load_best_hyperparameters (file : HyperparamFile) :
    Option (List (String × String)) :=
  match file with
  | .missing => none
  | .malformed => none
  | .parsed [] => none
  | .parsed (row :: _) => some row

/-- Claim C1: the spec says both rows of the example get
weekly_transactions = 2.  The code instead produces a missing value (NaN)
for both rows: the dict is keyed by Sunday week-end labels (day 6) while
the week column holds Monday week starts (day 0), so the lookup never
hits.  This theorem evaluates the code at the failing input and records
that the result is not the claimed one. -/
theorem weekly_aggregation_c1_eval :
    ((weekly_aggregation exampleTransactions).map
        (fun r => r.weekly_transactions) = [none, none])
    ∧ ((weekly_aggregation exampleTransactions).map
        (fun r => r.weekly_transactions) ≠ [some 2, some 2]) := by
  constructor
  · decide
  · decide

/-- Helper: the median of a nonempty list of rationals exists. -/
theorem medianQ_isSome {l : List ℚ} (h : l ≠ []) : (medianQ l).isSome := by
  have hlen : (l.insertionSort (fun x y => x ≤ y)).length = l.length :=
    (List.perm_insertionSort _ l).length_eq
  unfold medianQ
  rw [hlen]
  have hne : l.length ≠ 0 := fun h0 => h (List.eq_nil_of_length_eq_zero h0)
  split_ifs <;> simp_all

/-- Helper: the cut over the concrete edge and label lists, written out. -/
theorem cut_eval (a : ℚ) :
    cutLeftClosed age_bins age_labels a =
      if 10 ≤ a ∧ a < 19 then some "10-19"
      else if 19 ≤ a ∧ a < 29 then some "20-29"
      else if 29 ≤ a ∧ a < 39 then some "30-39"
      else if 39 ≤ a ∧ a < 49 then some "40-49"
      else if 49 ≤ a ∧ a < 59 then some "50-59"
      else if 59 ≤ a ∧ a < 69 then some "60+"
      else none := by
  simp only [age_bins, age_labels, cutLeftClosed]

/-- Helper: the two .loc overrides after the cut, written as one chain. -/
theorem binOfAdjusted_eval (adj : ℚ) :
    binOfAdjusted adj =
      if adj = 60 then some "60+"
      else if adj = 10 then some "10-19"
      else cutLeftClosed age_bins age_labels adj := by
  unfold binOfAdjusted
  by_cases h6 : adj = 60
  · simp [h6]
  · by_cases h1 : adj = 10 <;> simp [h1, h6]

/-- Helper: the composite cut-plus-overrides of the code, as a function of
the original age, is the amended labelling. -/
theorem binOfAdjusted_adjustAge (a : ℚ) :
    binOfAdjusted (adjustAge a) = some (amendedBinLabel a) := by
  unfold amendedBinLabel
  by_cases h1 : a < 20
  · have e1 : adjustAge a = 10 := by unfold adjustAge; rw [if_pos h1]
    rw [e1, if_pos h1, show binOfAdjusted 10 = some "10-19" by decide]
  · push_neg at h1
    rw [if_neg (not_lt.mpr h1)]
    by_cases h6 : 60 ≤ a
    · have e1 : adjustAge a = 60 := by
        unfold adjustAge; rw [if_neg (not_lt.mpr h1), if_pos h6]
      rw [e1, if_neg (not_lt.mpr (by linarith)), if_neg (not_lt.mpr (by linarith)),
        if_neg (not_lt.mpr (by linarith)), if_neg (not_lt.mpr (by linarith)),
        show binOfAdjusted 60 = some "60+" by decide]
    · push_neg at h6
      have e1 : adjustAge a = a := by
        unfold adjustAge; rw [if_neg (not_lt.mpr h1), if_neg (not_le.mpr h6)]
      rw [e1, binOfAdjusted_eval, if_neg (ne_of_lt h6),
        if_neg (ne_of_gt (show (10:ℚ) < a by linarith)), cut_eval,
        if_neg (by rintro ⟨h, hb⟩; linarith)]
      by_cases h2 : a < 29
      · rw [if_pos h2, if_pos ⟨by linarith, h2⟩]
      · push_neg at h2
        rw [if_neg (not_lt.mpr h2), if_neg (by rintro ⟨h, hb⟩; linarith)]
        by_cases h3 : a < 39
        · rw [if_pos h3, if_pos ⟨h2, h3⟩]
        · push_neg at h3
          rw [if_neg (not_lt.mpr h3), if_neg (by rintro ⟨h, hb⟩; linarith)]
          by_cases h4 : a < 49
          · rw [if_pos h4, if_pos ⟨h3, h4⟩]
          · push_neg at h4
            rw [if_neg (not_lt.mpr h4), if_neg (by rintro ⟨h, hb⟩; linarith)]
            by_cases h5 : a < 59
            · rw [if_pos h5, if_pos ⟨h4, h5⟩]
            · push_neg at h5
              rw [if_neg (not_lt.mpr h5), if_neg (by rintro ⟨h, hb⟩; linarith),
                if_pos ⟨h5, by linarith⟩]

/-- Claim C5 counterexample: on a table whose only customer has a null
age, the age column is still null after handle_missing_values, because
the median of an all-null column is itself NaN; so the claim that the
five columns contain no missing values after the call is false. -/
theorem handle_missing_values_c5_counterexample :
    ((handle_missing_values [customerAllNull]).map (fun c => c.age) = [none])
    ∧ ¬ (∀ c ∈ handle_missing_values [customerAllNull], c.age.isSome) := by
  constructor
  · decide
  · decide

/-- Claim C5 as amended: handle_missing_values is total, after it the
FN, Active, fashion_news_frequency and club_member_status columns contain
no missing values, and the age column contains no missing values provided
at least one input customer has a non-null age. -/
theorem handle_missing_values_c5_amended (cs : List Customer) :
    (∀ c ∈ handle_missing_values cs,
        c.FN.isSome ∧ c.Active.isSome ∧ c.fashion_news_frequency.isSome
          ∧ c.club_member_status.isSome)
    ∧ ((∃ c0 ∈ cs, c0.age.isSome) →
        ∀ c ∈ handle_missing_values cs, c.age.isSome) := by
  constructor
  · intro c hc
    simp only [handle_missing_values, List.mem_map] at hc
    obtain ⟨c0, _, rfl⟩ := hc
    exact ⟨rfl, rfl, rfl, rfl⟩
  · rintro ⟨c0, hc0, hage⟩ c hc
    simp only [handle_missing_values, List.mem_map] at hc
    obtain ⟨c1, _, rfl⟩ := hc
    cases h1 : c1.age with
    | some a => simp [h1]
    | none =>
      simp only [h1, Option.none_or]
      have hmem : ∀ a, c0.age = some a → a ∈ cs.filterMap (fun c => c.age) := by
        intro a ha
        exact List.mem_filterMap.mpr ⟨c0, hc0, ha⟩
      obtain ⟨a, ha⟩ := Option.isSome_iff_exists.mp hage
      have : cs.filterMap (fun c => c.age) ≠ [] :=
        List.ne_nil_of_mem (hmem a ha)
      exact medianQ_isSome this

/-- Witness for the amended C5 theorem at a concrete one-row table. -/
theorem handle_missing_values_c5_amended_witness :
    (∃ c0 ∈ [customerWithAge], c0.age.isSome)
    ∧ ∀ c ∈ handle_missing_values [customerWithAge], c.age.isSome :=
  ⟨⟨customerWithAge, by decide, by decide⟩,
   (handle_missing_values_c5_amended [customerWithAge]).2
     ⟨customerWithAge, by decide, by decide⟩⟩

/-- Claim C4 counterexample: a customer aged 29 has adjusted_age 29, whose
left-inclusive decade band is "20-29", but the code's cut edges are
10,19,29,39,49,59,69, so the code assigns "30-39". -/
theorem create_age_bins_c4_counterexample :
    ((create_age_bins [customerAge29]).map (fun c => c.age_bin) = [some "30-39"])
    ∧ decadeBandLabel 29 = some "20-29"
    ∧ (some "30-39" ≠ some "20-29") := by
  refine ⟨by decide, by decide, by decide⟩

/-- Claim C4 as amended: for every customer with numeric age,
create_age_bins sets adjusted_age to 10 when age < 20, to 60 when
age >= 60, and to age otherwise, and assigns age_bin by the left-closed
bands between the cut edges 10,19,29,39,49,59,69 (labels "10-19".."60+"),
so that ages in [20,29) get "20-29", in [29,39) get "30-39", in [39,49)
get "40-49", in [49,59) get "50-59", and at or above 59 get "60+"; the
spec's three examples (15, 65, 45) are unaffected. -/
theorem create_age_bins_c4_amended (cs : List Customer) (c : CustomerBinned)
    (hc : c ∈ create_age_bins cs) (a : ℚ) (ha : c.age = some a) :
    c.adjusted_age = some (if a < 20 then 10 else if 60 ≤ a then 60 else a)
    ∧ c.age_bin = some (amendedBinLabel a) := by
  simp only [create_age_bins, List.mem_map] at hc
  obtain ⟨c0, _, rfl⟩ := hc
  have ha0 : c0.age = some a := ha
  rw [show (if a < 20 then (10:ℚ) else if 60 ≤ a then 60 else a) = adjustAge a from rfl]
  constructor
  · simp [ha0]
  · simp [ha0, binOfAdjusted_adjustAge]

/-- Witness for the amended C4 theorem at a concrete customer aged 45. -/
theorem create_age_bins_c4_amended_witness :
    binned45.adjusted_age = some (if (45:ℚ) < 20 then 10 else if 60 ≤ (45:ℚ) then 60 else 45)
    ∧ binned45.age_bin = some (amendedBinLabel 45) :=
  create_age_bins_c4_amended [customerAge45] binned45 (by decide) 45 (by decide)

/-- Helper: a left merge finds, for the key of a mapped association list,
the pair built from that key. -/
theorem find?_map_pair {α β : Type} [DecidableEq α] (g : α → β) :
    ∀ (L : List α) (a : α), a ∈ L →
      (L.map (fun x => (x, g x))).find? (fun p => decide (p.1 = a)) = some (a, g a) := by
  intro L a ha
  induction L with
  | nil => cases ha
  | cons x L ih =>
    by_cases hxa : x = a
    · subst hxa
      rw [List.map_cons]
      exact List.find?_cons_of_pos _ (by simp)
    · rw [List.map_cons, List.find?_cons_of_neg _ (by simp [hxa])]
      exact ih ((List.mem_cons.mp ha).resolve_left (fun h => hxa h.symm))

/-- Helper: every transaction contributes at least one merged row. -/
theorem expandTransaction_ne_nil (cs : List CustomerBinned) (t : Transaction) :
    expandTransaction cs t ≠ [] := by
  unfold expandTransaction
  cases cs.filter (fun c => decide (c.customer_id = t.customer_id)) <;> simp

/-- Helper: every merged row of a transaction keeps its article_id. -/
theorem expandTransaction_article (cs : List CustomerBinned) (t : Transaction) :
    ∀ r ∈ expandTransaction cs t, r.article_id = t.article_id := by
  intro r hr
  unfold expandTransaction at hr
  cases hm : cs.filter (fun c => decide (c.customer_id = t.customer_id)) with
  | nil =>
    rw [hm] at hr
    simp at hr
    rw [hr]
  | cons c cr =>
    rw [hm] at hr
    obtain ⟨c1, _, rfl⟩ := List.mem_map.mp hr
    rfl

/-- Helper: every merged row's age_bin is null or comes from a customer. -/
theorem expandTransaction_bin (cs : List CustomerBinned) (t : Transaction) :
    ∀ r ∈ expandTransaction cs t, r.age_bin = none ∨ ∃ c ∈ cs, r.age_bin = c.age_bin := by
  intro r hr
  unfold expandTransaction at hr
  cases hm : cs.filter (fun c => decide (c.customer_id = t.customer_id)) with
  | nil =>
    rw [hm] at hr
    simp at hr
    rw [hr]
    exact Or.inl rfl
  | cons c cr =>
    rw [hm] at hr
    obtain ⟨c1, hc1, rfl⟩ := List.mem_map.mp hr
    refine Or.inr ⟨c1, ?_, rfl⟩
    have : c1 ∈ cs.filter (fun c => decide (c.customer_id = t.customer_id)) := hm ▸ hc1
    exact (List.mem_filter.mp this).1

/-- Helper: under the well-formedness hypothesis the merged rows only
carry the six labels or null. -/
theorem mergeAgeBin_bins (ts : List Transaction) (cs : List CustomerBinned)
    (hbins : ∀ c ∈ cs, c.age_bin = none ∨ ∃ s ∈ age_labels, c.age_bin = some s) :
    ∀ r ∈ mergeAgeBin ts cs, ∀ s, r.age_bin = some s → s ∈ age_labels := by
  intro r hr s hs
  unfold mergeAgeBin at hr
  obtain ⟨block, hblock, hrb⟩ := List.mem_flatten.mp hr
  obtain ⟨t, _, rfl⟩ := List.mem_map.mp hblock
  rcases expandTransaction_bin cs t r hrb with h | ⟨c, hc, hcb⟩
  · rw [h] at hs; cases hs
  · rcases hbins c hc with h | ⟨s1, hs1, hcb1⟩
    · rw [hcb, h] at hs; cases hs
    · rw [hcb, hcb1] at hs
      cases hs
      exact hs1

/-- Helper: the article of every transaction occurs among the distinct
articles of the merged table. -/
theorem mem_tempArticles (ts : List Transaction) (cs : List CustomerBinned)
    {t : Transaction} (ht : t ∈ ts) :
    t.article_id ∈ tempArticles (mergeAgeBin ts cs) := by
  apply List.mem_dedup.mpr
  apply List.mem_map.mpr
  obtain ⟨r, hr⟩ := List.exists_mem_of_ne_nil _ (expandTransaction_ne_nil cs t)
  refine ⟨r, ?_, expandTransaction_article cs t r hr⟩
  unfold mergeAgeBin
  exact List.mem_flatten.mpr ⟨expandTransaction cs t, List.mem_map.mpr ⟨t, ht, rfl⟩, hr⟩

/-- Helper: articles of the merged table have at least one row. -/
theorem articleTotal_pos (temp : List TempRow) {a : Nat}
    (ha : a ∈ tempArticles temp) : 0 < articleTotal temp a := by
  obtain ⟨r, hr, hra⟩ := List.mem_map.mp (List.mem_dedup.mp ha)
  exact List.countP_pos_iff.mpr ⟨r, hr, by simp [hra]⟩

/-- Helper: the matched rows are among all the article's rows. -/
theorem matchedCount_le (temp : List TempRow) (a : Nat) :
    matchedCount temp a ≤ articleTotal temp a := by
  apply List.countP_mono_left
  intro r _ h
  simp only [Bool.and_eq_true] at h
  exact h.1

/-- Helper: dividing each summand by a common denominator divides the
sum. -/
theorem sum_map_div {α : Type} (L : List α) (f : α → ℚ) (c : ℚ) :
    (L.map (fun x => f x / c)).sum = (L.map f).sum / c := by
  induction L with
  | nil => simp
  | cons x L ih => simp [ih, add_div]

/-- Helper: sums of pointwise sums split. -/
theorem sum_map_add {α : Type} (L : List α) (f g : α → ℕ) :
    (L.map (fun x => f x + g x)).sum = (L.map f).sum + (L.map g).sum := by
  induction L with
  | nil => rfl
  | cons x L ih =>
    simp only [List.map_cons, List.sum_cons, ih]
    omega

/-- Helper: an indicator over a list missing the key sums to zero. -/
theorem sum_indicator_notMem {L : List String} {s : String} (hs : s ∉ L) :
    (L.map (fun b => if s = b then (1:ℕ) else 0)).sum = 0 := by
  induction L with
  | nil => rfl
  | cons b L ih =>
    simp only [List.map_cons, List.sum_cons]
    rw [if_neg (fun h => hs (by rw [h]; exact List.mem_cons_self b L)),
      ih (fun h => hs (List.mem_cons_of_mem b h))]

/-- Helper: an indicator over a duplicate-free list containing the key
sums to one. -/
theorem sum_indicator_mem {L : List String} (hnd : L.Nodup) {s : String} (hs : s ∈ L) :
    (L.map (fun b => if s = b then (1:ℕ) else 0)).sum = 1 := by
  induction L with
  | nil => cases hs
  | cons b L ih =>
    simp only [List.map_cons, List.sum_cons]
    rcases List.mem_cons.mp hs with h | h
    · subst h
      rw [if_pos rfl, sum_indicator_notMem (List.nodup_cons.mp hnd).1]
    · rw [if_neg (fun e => (List.nodup_cons.mp hnd).1 (by rw [← e]; exact h)),
        ih (List.nodup_cons.mp hnd).2 h]

/-- Helper: the six per-bin group sizes of an article add up to its
matched row count: null-bin rows fall out of every group. -/
theorem sum_binCount (temp : List TempRow) (a : Nat)
    (hb : ∀ r ∈ temp, ∀ s, r.age_bin = some s → s ∈ age_labels) :
    (age_labels.map (fun b => binCount temp a b)).sum = matchedCount temp a := by
  induction temp with
  | nil => simp [binCount, matchedCount]
  | cons r temp ih =>
    have hb1 : ∀ x ∈ temp, ∀ s, x.age_bin = some s → s ∈ age_labels :=
      fun x hx => hb x (List.mem_cons_of_mem r hx)
    have hsum := ih hb1
    simp only [binCount, matchedCount, List.countP_cons] at hsum ⊢
    rw [sum_map_add age_labels
      (fun b => temp.countP (fun x => decide (x.article_id = a ∧ x.age_bin = some b)))
      (fun b => if (decide (r.article_id = a ∧ r.age_bin = some b)) = true then 1 else 0),
      hsum]
    congr 1
    by_cases hra : r.article_id = a
    · cases hbin : r.age_bin with
      | none =>
        simp [hra, hbin]
      | some s =>
        have hmem : s ∈ age_labels := hb r (List.mem_cons_self r temp) s hbin
        have hnd : age_labels.Nodup := by decide
        rw [show (age_labels.map
            (fun b => if (decide (r.article_id = a ∧ some s = some b)) = true then 1 else 0))
            = age_labels.map (fun b => if s = b then (1:ℕ) else 0) from
          List.map_congr_left (fun b _ => by simp [hra])]
        rw [sum_indicator_mem hnd hmem]
        simp [hra]
    · simp [hra]

/-- Helper: the table rows of one article all pass the article filter. -/
theorem articleBlock_filter_self (temp : List TempRow) (a : Nat) :
    (articleBlock temp a).filter (fun p => decide (p.1 = a)) = articleBlock temp a := by
  apply List.filter_eq_self.mpr
  intro p hp
  obtain ⟨b, _, rfl⟩ := List.mem_map.mp hp
  simp

/-- Helper: another article's table rows all fail the article filter. -/
theorem articleBlock_filter_other (temp : List TempRow) {x a : Nat} (hxa : x ≠ a) :
    (articleBlock temp x).filter (fun p => decide (p.1 = a)) = [] := by
  apply List.filter_eq_nil_iff.mpr
  intro p hp
  obtain ⟨b, _, rfl⟩ := List.mem_map.mp hp
  simp [hxa]

/-- Helper: filtering a concatenation of per-article blocks for an absent
article gives nothing. -/
theorem table_filter_notMem (temp : List TempRow) (a : Nat) :
    ∀ (L : List Nat), a ∉ L →
      ((L.map (fun x => articleBlock temp x)).flatten.filter
        (fun p => decide (p.1 = a))) = [] := by
  intro L
  induction L with
  | nil => intro _; rfl
  | cons x L ih =>
    intro hna
    rw [List.map_cons, List.flatten_cons, List.filter_append,
      articleBlock_filter_other temp (fun e => hna (by rw [← e]; exact List.mem_cons_self x L)),
      ih (fun h => hna (List.mem_cons_of_mem x h))]
    rfl

/-- Helper: filtering the concatenation of per-article blocks for a
present article recovers exactly that article's block. -/
theorem table_filter_mem (temp : List TempRow) (a : Nat) :
    ∀ (L : List Nat), L.Nodup → a ∈ L →
      ((L.map (fun x => articleBlock temp x)).flatten.filter
        (fun p => decide (p.1 = a))) = articleBlock temp a := by
  intro L
  induction L with
  | nil => intro _ h; cases h
  | cons x L ih =>
    intro hnd hmem
    rw [List.map_cons, List.flatten_cons, List.filter_append]
    rcases List.mem_cons.mp hmem with h | h
    · subst h
      rw [articleBlock_filter_self,
        table_filter_notMem temp a L (List.nodup_cons.mp hnd).1, List.append_nil]
    · rw [articleBlock_filter_other temp
          (fun e => (List.nodup_cons.mp hnd).1 (by rw [e]; exact h)),
        ih (List.nodup_cons.mp hnd).2 h, List.nil_append]

/-- Helper: the grouped-back rates of a present article are its six
per-bin rates. -/
theorem articleRates_eq (temp : List TempRow) {a : Nat}
    (ha : a ∈ tempArticles temp) :
    articleRates temp a
      = age_labels.map (fun b =>
          (binCount temp a b : ℚ) / (articleTotal temp a : ℚ)) := by
  unfold articleRates purchaseRateTable
  rw [table_filter_mem temp a (tempArticles temp) (List.nodup_dedup _) ha]
  unfold articleBlock
  rw [List.map_map]
  rfl

/-- Helper: every present article has exactly six table rows. -/
theorem articleRates_length (temp : List TempRow) {a : Nat}
    (ha : a ∈ tempArticles temp) : (articleRates temp a).length = 6 := by
  rw [articleRates_eq temp ha, List.length_map]
  rfl

/-- Helper: the six rates of a present article sum to its matched
fraction. -/
theorem articleRates_sum (temp : List TempRow) {a : Nat}
    (ha : a ∈ tempArticles temp)
    (hb : ∀ r ∈ temp, ∀ s, r.age_bin = some s → s ∈ age_labels) :
    (articleRates temp a).sum
      = (matchedCount temp a : ℚ) / (articleTotal temp a : ℚ) := by
  have hcast : (age_labels.map (fun b => ((binCount temp a b : ℕ) : ℚ))).sum
      = (((age_labels.map (fun b => binCount temp a b)).sum : ℕ) : ℚ) := by
    rw [Nat.cast_list_sum, List.map_map]
    rfl
  rw [articleRates_eq temp ha, sum_map_div, hcast, sum_binCount temp a hb]

/-- Helper: the lookup of a present article in the summary. -/
theorem summary_find (temp : List TempRow) {a : Nat}
    (ha : a ∈ tempArticles temp) :
    (purchaseRateSummary temp).find? (fun p => decide (p.1 = a))
      = some (a, (articleRates temp a).sum / ((articleRates temp a).length : ℚ)) := by
  unfold purchaseRateSummary
  exact find?_map_pair _ _ a ha

/-- Helper: what each output row's purchase_rate actually is: the
article's matched fraction divided by six. -/
theorem purchase_rate_output_eq (ts : List Transaction) (cs : List CustomerBinned)
    (hbins : ∀ c ∈ cs, c.age_bin = none ∨ ∃ s ∈ age_labels, c.age_bin = some s) :
    ∀ row ∈ purchase_rate_per_article_per_age ts cs,
      row.purchase_rate = some
        (((matchedCount (mergeAgeBin ts cs) row.article_id : ℚ)
            / (articleTotal (mergeAgeBin ts cs) row.article_id : ℚ)) / 6) := by
  intro row hrow
  simp only [purchase_rate_per_article_per_age, List.mem_map] at hrow
  obtain ⟨t, ht, rfl⟩ := hrow
  have hA : t.article_id ∈ tempArticles (mergeAgeBin ts cs) := mem_tempArticles ts cs ht
  have hb := mergeAgeBin_bins ts cs hbins
  show ((purchaseRateSummary (mergeAgeBin ts cs)).find?
      (fun p => decide (p.1 = t.article_id))).map (fun p => p.2) = _
  rw [summary_find _ hA, articleRates_sum _ hA hb, articleRates_length _ hA]
  norm_num

/-- Claim C2 as amended: purchase_rate_per_article_per_age assigns to
each article the uniform mean over all six age-bin categories — observed
or not, since the categorical groupby keeps unobserved categories — of
the fraction of the article's purchases in that bin; transactions whose
customer_id has no match get a null age_bin and are counted in the
article's denominator but in no bin's numerator, so every output row
carries some ((matched fraction) / 6). -/
theorem purchase_rate_c2_amended (ts : List Transaction) (cs : List CustomerBinned)
    (hbins : ∀ c ∈ cs, c.age_bin = none ∨ ∃ s ∈ age_labels, c.age_bin = some s) :
    ∀ row ∈ purchase_rate_per_article_per_age ts cs,
      row.purchase_rate = some
        (((matchedCount (mergeAgeBin ts cs) row.article_id : ℚ)
            / (articleTotal (mergeAgeBin ts cs) row.article_id : ℚ)) / 6) :=
  purchase_rate_output_eq ts cs hbins

/-- Witness for the amended C2 theorem: the single fully matched
transaction gets purchase_rate (1/1)/6 = 1/6. -/
theorem purchase_rate_c2_amended_witness :
    ∃ row ∈ purchase_rate_per_article_per_age witnessTransactionsPR exampleCustomersPR,
      row.purchase_rate = some
        (((matchedCount (mergeAgeBin witnessTransactionsPR exampleCustomersPR)
              row.article_id : ℚ)
            / (articleTotal (mergeAgeBin witnessTransactionsPR exampleCustomersPR)
              row.article_id : ℚ)) / 6) := by
  have hne : purchase_rate_per_article_per_age witnessTransactionsPR exampleCustomersPR ≠ [] :=
    List.length_pos.mp (by
      rw [show (purchase_rate_per_article_per_age witnessTransactionsPR
        exampleCustomersPR).length = 1 from rfl]
      norm_num)
  obtain ⟨row, hrow⟩ := List.exists_mem_of_ne_nil _ hne
  exact ⟨row, hrow,
    purchase_rate_c2_amended witnessTransactionsPR exampleCustomersPR (by decide) row hrow⟩

/-- Claim C2 counterexample: on three transactions of article 10 — two by
a customer binned "10-19" and one by an unmatched customer — the code
produces purchase_rate 1/9 for every row (rates 2/3,0,0,0,0,0 averaged
over the six categories), while the claim's uniform mean over exactly the
observed buckets with null as its own bucket gives (2/3 + 1/3)/2 = 1/2. -/
theorem purchase_rate_c2_counterexample :
    ((purchase_rate_per_article_per_age exampleTransactionsPR exampleCustomersPR).length = 3)
    ∧ (∀ row ∈ purchase_rate_per_article_per_age exampleTransactionsPR exampleCustomersPR,
        row.purchase_rate = some (1/9))
    ∧ claimPurchaseRate (mergeAgeBin exampleTransactionsPR exampleCustomersPR) 10 = 1/2
    ∧ ((1:ℚ)/9 ≠ 1/2) := by
  refine ⟨rfl, ?_, ?_, by norm_num⟩
  · intro row hrow
    have hout := purchase_rate_output_eq exampleTransactionsPR exampleCustomersPR
      (by decide) row hrow
    have hart : row.article_id = 10 := by
      simp only [purchase_rate_per_article_per_age, List.mem_map] at hrow
      obtain ⟨t, ht, rfl⟩ := hrow
      fin_cases ht <;> rfl
    rw [hout, hart,
      show matchedCount (mergeAgeBin exampleTransactionsPR exampleCustomersPR) 10 = 2
        from by decide,
      show articleTotal (mergeAgeBin exampleTransactionsPR exampleCustomersPR) 10 = 3
        from by decide]
    norm_num
  · unfold claimPurchaseRate
    rw [show claimObservedBuckets (mergeAgeBin exampleTransactionsPR exampleCustomersPR) 10
        = [some "10-19", none] from by decide]
    simp only [List.map_cons, List.map_nil, List.sum_cons, List.sum_nil, List.length_cons,
      List.length_nil]
    rw [show (mergeAgeBin exampleTransactionsPR exampleCustomersPR).countP
          (fun r => decide (r.article_id = 10 ∧ r.age_bin = some "10-19")) = 2 from by decide,
      show (mergeAgeBin exampleTransactionsPR exampleCustomersPR).countP
          (fun r => decide (r.article_id = 10 ∧ r.age_bin = none)) = 1 from by decide,
      show articleTotal (mergeAgeBin exampleTransactionsPR exampleCustomersPR) 10 = 3
        from by decide]
    norm_num

/-- Claim C3 counterexample: on the same three transactions the
per-(article, bin) contributions of article 10 sum to 2/3, not 1: the
unmatched transaction counts in the denominator but in no bin. -/
theorem purchase_rate_c3_counterexample :
    ((articleRates (mergeAgeBin exampleTransactionsPR exampleCustomersPR) 10).sum = 2/3)
    ∧ ((2:ℚ)/3 ≠ 1) := by
  refine ⟨?_, by norm_num⟩
  rw [articleRates_eq _ (by decide : (10:ℕ) ∈
    tempArticles (mergeAgeBin exampleTransactionsPR exampleCustomersPR))]
  simp only [age_labels, List.map_cons, List.map_nil, List.sum_cons, List.sum_nil]
  rw [show binCount (mergeAgeBin exampleTransactionsPR exampleCustomersPR) 10 "10-19" = 2
      from by decide,
    show binCount (mergeAgeBin exampleTransactionsPR exampleCustomersPR) 10 "20-29" = 0
      from by decide,
    show binCount (mergeAgeBin exampleTransactionsPR exampleCustomersPR) 10 "30-39" = 0
      from by decide,
    show binCount (mergeAgeBin exampleTransactionsPR exampleCustomersPR) 10 "40-49" = 0
      from by decide,
    show binCount (mergeAgeBin exampleTransactionsPR exampleCustomersPR) 10 "50-59" = 0
      from by decide,
    show binCount (mergeAgeBin exampleTransactionsPR exampleCustomersPR) 10 "60+" = 0
      from by decide,
    show articleTotal (mergeAgeBin exampleTransactionsPR exampleCustomersPR) 10 = 3
      from by decide]
  norm_num

/-- Claim C3 as amended: for every article appearing in the transactions,
the per-(article, bin) contributions in the purchase-rate table sum to the
article's matched fraction — equal to 1 exactly when every one of its
transactions has a non-null age_bin — and every final purchase_rate lies
in [0, 1]. -/
theorem purchase_rate_c3_amended (ts : List Transaction) (cs : List CustomerBinned)
    (hbins : ∀ c ∈ cs, c.age_bin = none ∨ ∃ s ∈ age_labels, c.age_bin = some s) :
    (∀ t ∈ ts,
      (articleRates (mergeAgeBin ts cs) t.article_id).sum
          = (matchedCount (mergeAgeBin ts cs) t.article_id : ℚ)
            / (articleTotal (mergeAgeBin ts cs) t.article_id : ℚ)
        ∧ (matchedCount (mergeAgeBin ts cs) t.article_id
              = articleTotal (mergeAgeBin ts cs) t.article_id →
            (articleRates (mergeAgeBin ts cs) t.article_id).sum = 1))
    ∧ (∀ row ∈ purchase_rate_per_article_per_age ts cs,
        ∃ v, row.purchase_rate = some v ∧ 0 ≤ v ∧ v ≤ 1) := by
  have hb := mergeAgeBin_bins ts cs hbins
  constructor
  · intro t ht
    have hA := mem_tempArticles ts cs ht
    refine ⟨articleRates_sum _ hA hb, ?_⟩
    intro he
    rw [articleRates_sum _ hA hb, he]
    have hpos := articleTotal_pos _ hA
    exact div_self (by exact_mod_cast hpos.ne')
  · intro row hrow
    have hout := purchase_rate_output_eq ts cs hbins row hrow
    simp only [purchase_rate_per_article_per_age, List.mem_map] at hrow
    obtain ⟨t, ht, rfl⟩ := hrow
    have hA : t.article_id ∈ tempArticles (mergeAgeBin ts cs) := mem_tempArticles ts cs ht
    refine ⟨_, hout, ?_, ?_⟩
    · apply div_nonneg _ (by norm_num)
      exact div_nonneg (Nat.cast_nonneg _) (Nat.cast_nonneg _)
    · have hposQ : (0:ℚ) < (articleTotal (mergeAgeBin ts cs) t.article_id : ℚ) := by
        exact_mod_cast articleTotal_pos _ hA
      have hfrac : (matchedCount (mergeAgeBin ts cs) t.article_id : ℚ)
          / (articleTotal (mergeAgeBin ts cs) t.article_id : ℚ) ≤ 1 :=
        (div_le_one hposQ).mpr (by exact_mod_cast matchedCount_le _ _)
      rw [div_le_one (by norm_num : (0:ℚ) < 6)]
      linarith

/-- Witness for the amended C3 theorem at the fully matched one-row
table: the output row's rate is defined and lies in [0, 1]. -/
theorem purchase_rate_c3_amended_witness :
    ∃ row ∈ purchase_rate_per_article_per_age witnessTransactionsPR exampleCustomersPR,
      ∃ v, row.purchase_rate = some v ∧ 0 ≤ v ∧ v ≤ 1 := by
  have hne : purchase_rate_per_article_per_age witnessTransactionsPR exampleCustomersPR ≠ [] :=
    List.length_pos.mp (by
      rw [show (purchase_rate_per_article_per_age witnessTransactionsPR
        exampleCustomersPR).length = 1 from rfl]
      norm_num)
  obtain ⟨row, hrow⟩ := List.exists_mem_of_ne_nil _ hne
  exact ⟨row, hrow,
    (purchase_rate_c3_amended witnessTransactionsPR exampleCustomersPR (by decide)).2 row hrow⟩

/-- Claim C8: with a fixed reference date the elapsed-day computation is
deterministic: the hidden processing-time input (today) has no influence
on either elapsed column, so two runs on the same data with the same
reference date produce identical columns. -/
theorem calculate_elapsed_days_c8 (ts : List Transaction) (r today1 today2 : Int) :
    (calculate_elapsed_days ts (some r) today1).map
        (fun x => (x.elapsed_days_since_last_purchase, x.elapsed_days_since_first_sell))
      = (calculate_elapsed_days ts (some r) today2).map
        (fun x => (x.elapsed_days_since_last_purchase, x.elapsed_days_since_first_sell)) := rfl

/-- Helper: a foldl max is at least its seed. -/
theorem base_le_foldl_max : ∀ (ds : List Int) (d : Int), d ≤ ds.foldl max d := by
  intro ds
  induction ds with
  | nil => intro d; exact le_refl d
  | cons e ds ih => intro d; exact le_trans (le_max_left d e) (ih (max d e))

/-- Helper: a foldl max bounds the seed and every element. -/
theorem le_foldl_max : ∀ (ds : List Int) (d x : Int), x = d ∨ x ∈ ds → x ≤ ds.foldl max d := by
  intro ds
  induction ds with
  | nil =>
    intro d x h
    rcases h with rfl | h
    · exact le_refl x
    · cases h
  | cons e ds ih =>
    intro d x h
    simp only [List.foldl_cons]
    rcases h with rfl | h
    · exact le_trans (le_max_left x e) (base_le_foldl_max ds (max x e))
    · rcases List.mem_cons.mp h with rfl | h
      · exact le_trans (le_max_right d x) (base_le_foldl_max ds (max d x))
      · exact ih (max d e) x (Or.inr h)

/-- Helper: a foldl min is at most its seed. -/
theorem foldl_min_le_base : ∀ (ds : List Int) (d : Int), ds.foldl min d ≤ d := by
  intro ds
  induction ds with
  | nil => intro d; exact le_refl d
  | cons e ds ih => intro d; exact le_trans (ih (min d e)) (min_le_left d e)

/-- Helper: a foldl min is below the seed and every element. -/
theorem foldl_min_le : ∀ (ds : List Int) (d x : Int), x = d ∨ x ∈ ds → ds.foldl min d ≤ x := by
  intro ds
  induction ds with
  | nil =>
    intro d x h
    rcases h with rfl | h
    · exact le_refl x
    · cases h
  | cons e ds ih =>
    intro d x h
    simp only [List.foldl_cons]
    rcases h with rfl | h
    · exact le_trans (foldl_min_le_base ds (min x e)) (min_le_left x e)
    · rcases List.mem_cons.mp h with rfl | h
      · exact le_trans (foldl_min_le_base ds (min d x)) (min_le_right d x)
      · exact ih (min d e) x (Or.inr h)

/-- Helper: the customer's last-purchase date exists and bounds the row's
own date from above. -/
theorem lastPurchase_ge {ts : List Transaction} {t : Transaction} (ht : t ∈ ts) :
    ∃ m, lastPurchase ts t.customer_id = some m ∧ t.t_dat ≤ m := by
  have hmem : t.t_dat ∈ (ts.filter (fun x => decide (x.customer_id = t.customer_id))).map
      (fun x => x.t_dat) :=
    List.mem_map.mpr ⟨t, List.mem_filter.mpr ⟨ht, by simp⟩, rfl⟩
  unfold lastPurchase
  cases hm : (ts.filter (fun x => decide (x.customer_id = t.customer_id))).map
      (fun x => x.t_dat) with
  | nil => rw [hm] at hmem; cases hmem
  | cons d ds =>
    rw [hm] at hmem
    exact ⟨ds.foldl max d, rfl, le_foldl_max ds d t.t_dat (List.mem_cons.mp hmem)⟩

/-- Helper: the article's first-sell date exists and bounds the row's own
date from below. -/
theorem firstSell_le {ts : List Transaction} {t : Transaction} (ht : t ∈ ts) :
    ∃ n, firstSell ts t.article_id = some n ∧ n ≤ t.t_dat := by
  have hmem : t.t_dat ∈ (ts.filter (fun x => decide (x.article_id = t.article_id))).map
      (fun x => x.t_dat) :=
    List.mem_map.mpr ⟨t, List.mem_filter.mpr ⟨ht, by simp⟩, rfl⟩
  unfold firstSell
  cases hm : (ts.filter (fun x => decide (x.article_id = t.article_id))).map
      (fun x => x.t_dat) with
  | nil => rw [hm] at hmem; cases hmem
  | cons d ds =>
    rw [hm] at hmem
    exact ⟨ds.foldl min d, rfl, foldl_min_le ds d t.t_dat (List.mem_cons.mp hmem)⟩

/-- Claim C10: for any reference date, every output row of
calculate_elapsed_days has both elapsed columns defined and satisfies
elapsed_days_since_first_sell ≥ elapsed_days_since_last_purchase: the
article's first sale date is at most the row's own date, which is at most
the customer's last purchase date. -/
theorem calculate_elapsed_days_c10 (ts : List Transaction) (reference_date : Option Int)
    (today : Int) :
    ∀ row ∈ calculate_elapsed_days ts reference_date today,
      ∃ el ef, row.elapsed_days_since_last_purchase = some el
        ∧ row.elapsed_days_since_first_sell = some ef ∧ el ≤ ef := by
  intro row hrow
  simp only [calculate_elapsed_days, List.mem_map] at hrow
  obtain ⟨t, ht, rfl⟩ := hrow
  obtain ⟨m, hm, hm2⟩ := lastPurchase_ge ht
  obtain ⟨n, hn, hn2⟩ := firstSell_le ht
  refine ⟨(reference_date.getD today) - m, (reference_date.getD today) - n, ?_, ?_, ?_⟩
  · show (lastPurchase ts t.customer_id).map _ = _
    rw [hm]
    rfl
  · show (firstSell ts t.article_id).map _ = _
    rw [hn]
    rfl
  · omega

/-- Witness for C10 on the two-row example with reference date day 10. -/
theorem calculate_elapsed_days_c10_witness :
    ∃ row ∈ calculate_elapsed_days exampleTransactions (some 10) 0,
      ∃ el ef, row.elapsed_days_since_last_purchase = some el
        ∧ row.elapsed_days_since_first_sell = some ef ∧ el ≤ ef := by
  obtain ⟨row, hrow⟩ := List.exists_mem_of_ne_nil _
    (by decide : calculate_elapsed_days exampleTransactions (some 10) 0 ≠ [])
  exact ⟨row, hrow, calculate_elapsed_days_c10 exampleTransactions (some 10) 0 row hrow⟩

/-- Claim C6: after group_articles every article row carries an
article_count equal to the number of articles in the table sharing its
exact (product_type_name, colour_group_name, graphical_appearance_name)
triple. -/
theorem group_articles_c6 (as : List Article) :
    ∀ r ∈ group_articles as,
      r.article_count
        = some (as.countP (fun x => decide (articleKey x = articleKey r.toArticle))) := by
  intro r hr
  simp only [group_articles, List.mem_map] at hr
  obtain ⟨a, ha, rfl⟩ := hr
  have hk : articleKey a ∈ (as.map articleKey).dedup :=
    List.mem_dedup.mpr (List.mem_map.mpr ⟨a, ha, rfl⟩)
  show ((groupedArticles as).find? _).map _ = _
  unfold groupedArticles
  rw [find?_map_pair (fun k => as.countP (fun x => decide (articleKey x = k))) _ _ hk]
  rfl

/-- Witness for C6 on the three-article table. -/
theorem group_articles_c6_witness :
    ∃ r ∈ group_articles exampleArticles,
      r.article_count
        = some (exampleArticles.countP
            (fun x => decide (articleKey x = articleKey r.toArticle))) := by
  obtain ⟨r, hr⟩ := List.exists_mem_of_ne_nil _
    (by decide : group_articles exampleArticles ≠ [])
  exact ⟨r, hr, group_articles_c6 exampleArticles r hr⟩

/-- Helper: every entry of the sorted totals carries the total of its own
group. -/
theorem sortedTotals_val (g : List GroupedRow) :
    ∀ p ∈ sortedTotals g, p.2 = groupTotal g p.1 := by
  intro p hp
  have hp2 : p ∈ productGroupTotals g :=
    ((List.perm_insertionSort countGE (productGroupTotals g)).mem_iff).mp hp
  obtain ⟨k, _, rfl⟩ := List.mem_map.mp hp2
  rfl

/-- Helper: every group present in the table has its entry somewhere in
the sorted totals. -/
theorem mem_sortedTotals (g : List GroupedRow) {s : GroupedRow} (hs : s ∈ g) :
    (s.product_group, groupTotal g s.product_group) ∈ sortedTotals g := by
  apply ((List.perm_insertionSort countGE (productGroupTotals g)).mem_iff).mpr
  apply List.mem_map.mpr
  exact ⟨s.product_group,
    List.mem_dedup.mpr (List.mem_map.mpr ⟨s, hs, rfl⟩), rfl⟩

/-- Claim C7: the filtered output has at most as many rows as the input,
every retained row's product_group belongs to the selected top-N set, and
the total transaction_count of every retained group is at least that of
every group excluded from the top-N set. -/
theorem get_top_product_groups_c7 (g : List GroupedRow) (top_n : Nat) :
    ((get_top_product_groups g top_n).length ≤ g.length)
    ∧ (∀ r ∈ get_top_product_groups g top_n,
        ∃ p ∈ topProductGroups g top_n, p.1 = r.product_group)
    ∧ (∀ r ∈ get_top_product_groups g top_n, ∀ s ∈ g,
        (¬ ∃ p ∈ topProductGroups g top_n, p.1 = s.product_group) →
        groupTotal g s.product_group ≤ groupTotal g r.product_group) := by
  have htop : ∀ r ∈ get_top_product_groups g top_n,
      ∃ p ∈ topProductGroups g top_n, p.1 = r.product_group := by
    intro r hr
    have := (List.mem_filter.mp hr).2
    simp only [List.any_eq_true, decide_eq_true_eq] at this
    exact this
  refine ⟨List.length_filter_le _ g, htop, ?_⟩
  intro r hr s hs hexcl
  obtain ⟨p, hp, hpe⟩ := htop r hr
  have hsorted : List.Pairwise countGE
      ((sortedTotals g).take top_n ++ (sortedTotals g).drop top_n) := by
    rw [List.take_append_drop]
    exact List.sorted_insertionSort countGE (productGroupTotals g)
  have hpair := (List.pairwise_append.mp hsorted).2.2
  have hsmem := mem_sortedTotals g hs
  rw [← List.take_append_drop top_n (sortedTotals g)] at hsmem
  rcases List.mem_append.mp hsmem with h | h
  · exact absurd ⟨_, h, rfl⟩ hexcl
  · have hge : countGE p (s.product_group, groupTotal g s.product_group) := hpair p hp _ h
    have hpval : p.2 = groupTotal g p.1 :=
      sortedTotals_val g p (List.mem_of_mem_take hp)
    unfold countGE at hge
    rw [hpval, hpe] at hge
    exact hge

/-- Witness for C7 on the two-group table with top_n = 1: group "A"
(total 9) is kept, group "B" (total 2) is excluded, and the inequality
holds. -/
theorem get_top_product_groups_c7_witness :
    (get_top_product_groups exampleGrouped 1).length ≤ exampleGrouped.length
    ∧ groupTotal exampleGrouped
        ({ product_group := "B", transaction_count := 2 } : GroupedRow).product_group
      ≤ groupTotal exampleGrouped
        ({ product_group := "A", transaction_count := 5 } : GroupedRow).product_group := by
  refine ⟨(get_top_product_groups_c7 exampleGrouped 1).1, ?_⟩
  exact (get_top_product_groups_c7 exampleGrouped 1).2.2
    { product_group := "A", transaction_count := 5 } (by decide)
    { product_group := "B", transaction_count := 2 } (by decide)
    (by decide)

/-- Claim C9: load_best_hyperparameters returns an absent result both
when the file is missing and when its content fails to parse — the two
failure modes produce the very same value, so callers cannot distinguish
them — and otherwise returns the file's first row as a key-value
mapping. -/
theorem load_best_hyperparameters_c9 (row : List (String × String))
    (rest : List (List (String × String))) :
    load_best_hyperparameters .missing = none
    ∧ load_best_hyperparameters .malformed = none
    ∧ load_best_hyperparameters .missing = load_best_hyperparameters .malformed
    ∧ load_best_hyperparameters (.parsed (row :: rest)) = some row :=
  ⟨rfl, rfl, rfl, rfl⟩
